import Mathlib

/-!
Shallow embedding of the Klondike solitaire backend
(`src/backend/card.py`, `src/backend/deck.py`, `src/backend/game_manager.py`).

Piles are Lean lists whose order matches Python list / `deque` iteration order
(left to right).  `deque.popleft` removes the head, `deque.append`/`list.append`
add at the end, `deque.pop` removes the last element.

Python `Card` objects are mutable and aliased.  `GameManager._get_pile` returns
the *actual* list object for `tableau_i` and `foundation_<suit>` locations but a
*fresh copy* (`list(self.waste)` / `list(self.stock)`) for `waste` and `stock`
(game_manager.py lines 236-240).  The pure model below reproduces the observable
consequences of that aliasing exactly: structural edits (`pop`, `del`, `append`)
made through a copy do not reach the real deque, while the in-place flip
`from_pile[-1].face_up = True` mutates a shared `Card` object and therefore does
reach it.
-/

/-- The four suits (`Card.SUITS` keys, card.py lines 48-53). -/
inductive Suit where
  | hearts | diamonds | clubs | spades
deriving DecidableEq, Repr

/-- A card (card.py `Card.__init__`): suit, numeric value 1..13, face flag.
Values are modelled as `Int` because Python arithmetic on them
(`other.value - 1`, `top.value + 1`) is integer arithmetic. -/
structure Card where
  suit : Suit
  value : Int
  face_up : Bool
deriving DecidableEq, Repr

/-- Stand-in for an arbitrary card; used only as the (never-reached) default of
`List.getD` where the Python code indexes with an already-validated index. -/
def dummyCard : Card := ⟨Suit.hearts, 1, false⟩

/-- `Card.is_red` (card.py lines 100-108): `self.suit in ['hearts', 'diamonds']`. -/
def Card.is_red (c : Card) : Bool :=
  decide (c.suit = Suit.hearts ∨ c.suit = Suit.diamonds)

/-- `Card.can_place_on` (card.py lines 114-128): on `None` a King (13) may start
a pile; otherwise strict descending rank with alternating color. -/
def Card.can_place_on (c : Card) : Option Card → Bool
  | none => decide (c.value = 13)
  | some other => decide (c.value = other.value - 1) && (c.is_red != other.is_red)

/-- A resolved pile location, the possible non-`None` results of
`GameManager._get_pile` (game_manager.py lines 216-242). -/
inductive Loc where
  | tableau : Fin 7 → Loc
  | foundation : Suit → Loc
  | waste
  | stock
deriving DecidableEq, Repr

/-- The game state owned by `GameManager` (game_manager.py lines 41-53):
seven tableau piles, four foundations keyed by suit, stock, waste, the move
counter and the win flag.  `game_id` and the spent `Deck` carry no game logic
and are not modelled. -/
structure GameState where
  tableau : Fin 7 → List Card
  foundations : Suit → List Card
  stock : List Card
  waste : List Card
  moves_count : Nat
  game_won : Bool

/-- The `__init__` state: empty piles, zero moves, not won. -/
def initState : GameState :=
  { tableau := fun _ => [], foundations := fun _ => [], stock := [], waste := [],
    moves_count := 0, game_won := false }

/-- Result dictionary of `draw_from_stock` / `move_card`:
`{'success': ..., 'message': ..., 'state': ...}`. -/
structure MoveResult where
  success : Bool
  message : String
  state : GameState

/-! ### String handling: the `re` pattern and `_get_pile` -/

/-- Whitespace characters stripped by Python `int()` around its argument. -/
def isWs (c : Char) : Bool :=
  c == ' ' || c == '\n' || c == '\t' || c == '\r'

/-- Python `str.split(sep)` for a one-character separator, on char lists. -/
def splitOnChar (sep : Char) : List Char → List (List Char)
  | [] => [[]]
  | c :: rest =>
    let r := splitOnChar sep rest
    if c == sep then [] :: r
    else
      match r with
      | [] => [[c]]
      | h :: t => (c :: h) :: t

/-- Parse a non-empty all-digit char list as a `Nat`. -/
def charsToNat? : List Char → Option Nat
  | [] => none
  | cs =>
    if cs.all Char.isDigit then
      some (cs.foldl (fun a c => a * 10 + (c.toNat - '0'.toNat)) 0)
    else none

/-- Strip whitespace from both ends of a char list. -/
def trimChars (cs : List Char) : List Char :=
  ((cs.dropWhile isWs).reverse.dropWhile isWs).reverse

/-- Python `int(s)` restricted to the inputs reachable here (a digit, possibly
with surrounding whitespace, e.g. `'5'` or `'5\n'`); `int()` ignores
surrounding whitespace.  Failure (`ValueError`) is modelled as `none`; under
the regex guard in `move_card` it is unreachable. -/
def pyInt? (cs : List Char) : Option Nat :=
  charsToNat? (trimChars cs)

/-- ASCII reading of Python's `\w` (word character). -/
def isWordChar (c : Char) : Bool := c.isAlphanum || c == '_'

/-- One full match of the alternation `tableau_\d|foundation_\w+|waste|stock`
against a whole char list (`\d`/`\w` read as ASCII classes). -/
def coreMatch (cs : List Char) : Bool :=
  ("tableau_".data.isPrefixOf cs && decide (cs.length = 9)
      && (match cs.getLast? with | some d => d.isDigit | none => false))
  || ("foundation_".data.isPrefixOf cs && decide (11 < cs.length)
      && (cs.drop 11).all isWordChar)
  || cs == "waste".data
  || cs == "stock".data

/-- `re.match(r'^(tableau_\d|foundation_\w+|waste|stock)$', s)` as a Bool
(game_manager.py line 136).  Python's `$` also matches just before a final
newline, hence the second disjunct. -/
def patMatch (s : String) : Bool :=
  coreMatch s.data
  || (match s.data.getLast? with
      | some c => c == '\n' && coreMatch s.data.dropLast
      | none => false)

/-- Lookup in the `self.foundations` dict keys (game_manager.py line 233). -/
def parseSuit (cs : List Char) : Option Suit :=
  if cs == "hearts".data then some Suit.hearts
  else if cs == "diamonds".data then some Suit.diamonds
  else if cs == "clubs".data then some Suit.clubs
  else if cs == "spades".data then some Suit.spades
  else none

/-- `GameManager._get_pile` (game_manager.py lines 216-242), reduced to the
location it denotes.  `startswith('tableau_')` parses `split('_')[1]` as an int
and checks `0 <= index < 7`; `startswith('foundation_')` looks `split('_')[1]`
up among the suit keys; otherwise the exact strings `waste`/`stock`; anything
else is `None`. -/
def getPileLoc (location : String) : Option Loc :=
  let cs := location.data
  if "tableau_".data.isPrefixOf cs then
    match pyInt? ((splitOnChar '_' cs).getD 1 []) with
    | some n => if h : n < 7 then some (Loc.tableau ⟨n, h⟩) else none
    | none => none
  else if "foundation_".data.isPrefixOf cs then
    match parseSuit ((splitOnChar '_' cs).getD 1 []) with
    | some s => some (Loc.foundation s)
    | none => none
  else if cs == "waste".data then some Loc.waste
  else if cs == "stock".data then some Loc.stock
  else none

/-- Contents of the list `_get_pile` hands back for a resolved location.  For
`waste`/`stock` the Python object is a fresh copy of the deque; its *contents*
are the same, and the copy/alias distinction is handled in the state-update
functions below. -/
def pileOf (g : GameState) : Loc → List Card
  | Loc.tableau i => g.tableau i
  | Loc.foundation s => g.foundations s
  | Loc.waste => g.waste
  | Loc.stock => g.stock

/-! ### Pile update helpers -/

/-- Replace tableau pile `i`. -/
def updT (t : Fin 7 → List Card) (i : Fin 7) (p : List Card) : Fin 7 → List Card :=
  fun j => if j = i then p else t j

/-- Replace the foundation pile for suit `s`. -/
def updF (f : Suit → List Card) (s : Suit) (p : List Card) : Suit → List Card :=
  fun t => if t = s then p else f t

/-- Set the card at position `j` face-up (in-place `card.face_up = True` on the
`j`-th element of a Python list). -/
def setFaceUpAt : List Card → Nat → List Card
  | [], _ => []
  | c :: rest, 0 => { c with face_up := true } :: rest
  | c :: rest, n + 1 => c :: setFaceUpAt rest n

/-- `if len(pile) > 0 and not pile[-1].face_up: pile[-1].face_up = True`
(game_manager.py lines 203-204), applied to a pile we hold directly. -/
def flipLastIfDown (p : List Card) : List Card :=
  match p.getLast? with
  | none => p
  | some c => if c.face_up then p else p.dropLast ++ [{ c with face_up := true }]

/-- The same reveal step when `from_pile` is a *copy* of the real deque from
which index `n` was popped (`from_pile.pop(card_index)` on the copy).  The
copy's last element is the real list's element at index `length-2` when `n` was
the last index, else at `length-1`; flipping it through the shared `Card`
object mutates the real deque at that position. -/
def flipAliasAfterPop (real : List Card) (n : Nat) : List Card :=
  match (real.eraseIdx n).getLast? with
  | none => real
  | some c =>
    if c.face_up then real
    else setFaceUpAt real (if n = real.length - 1 then real.length - 2 else real.length - 1)

/-- The same reveal step when `from_pile` is a *copy* truncated by
`del from_pile[card_index:]`: the copy's last element is the real list's
element at index `n - 1`. -/
def flipAliasAfterDel (real : List Card) (n : Nat) : List Card :=
  match (real.take n).getLast? with
  | none => real
  | some c => if c.face_up then real else setFaceUpAt real (n - 1)

/-- Total number of cards in the foundations (game_manager.py line 293). -/
def foundationTotal (g : GameState) : Nat :=
  ((g.foundations Suit.hearts).length + (g.foundations Suit.diamonds).length)
    + ((g.foundations Suit.clubs).length + (g.foundations Suit.spades).length)

/-- Tail of every successful `move_card`: `self.moves_count += 1` followed by
`self._check_win_condition()` (which only ever *sets* `game_won`, lines
288-295) and the success dictionary. -/
def finishMove (g : GameState) : MoveResult :=
  let g1 := { g with moves_count := g.moves_count + 1 }
  let g2 := { g1 with game_won := if foundationTotal g1 = 52 then true else g1.game_won }
  ⟨true, "Movimiento exitoso", g2⟩

/-- `card_index` normalisation and validation (game_manager.py lines 161-169):
`-1` means the last card; then the index must satisfy
`0 <= card_index < len(from_pile)`. -/
def resolvedIndex (card_index : Int) (len : Nat) : Option Nat :=
  let ci := if card_index = -1 then (len : Int) - 1 else card_index
  if ci < 0 ∨ ci ≥ (len : Int) then none else some ci.toNat

/-- `GameManager._can_move_to_foundation` (game_manager.py lines 244-265), with
the suit already extracted from the location string by the caller. -/
def can_move_to_foundation (g : GameState) (card : Card) (s : Suit) : Bool :=
  if card.suit ≠ s then false
  else
    match (g.foundations s).getLast? with
    | none => decide (card.value = 1)        -- empty foundation: only an Ace
    | some top => decide (card.value = top.value + 1)

/-- `GameManager._can_move_to_tableau` (game_manager.py lines 267-286). -/
def can_move_to_tableau (from_pile : List Card) (card_index : Nat)
    (to_pile : List Card) : Bool :=
  let card := from_pile.getD card_index dummyCard
  match to_pile.getLast? with
  | none => decide (card.value = 13)         -- empty column: only a King
  | some top => card.can_place_on (some top)

/-- New state after the foundation-destination success path
(game_manager.py line 188 `from_pile.pop(card_index)`, lines 200-204 append and
reveal).  The cases record where the Python list objects actually live:
tableau/foundation sources are the real lists, `waste`/`stock` sources are
copies whose structural edits are lost while the in-place flip still lands in
the real deque. -/
def foundationMoveState (g : GameState) (floc : Loc) (s : Suit) (n : Nat)
    (card : Card) : GameState :=
  match floc with
  | Loc.tableau i =>
    { g with tableau := updT g.tableau i (flipLastIfDown ((g.tableau i).eraseIdx n)),
             foundations := updF g.foundations s (g.foundations s ++ [card]) }
  | Loc.foundation s' =>
    if s' = s then
      -- source and destination are the same list object: pop, re-append, reveal
      { g with foundations := updF g.foundations s (flipLastIfDown (((g.foundations s).eraseIdx n) ++ [card])) }
    else
      { g with foundations := fun t =>
          if t = s then g.foundations s ++ [card]
          else if t = s' then flipLastIfDown ((g.foundations s').eraseIdx n)
          else g.foundations t }
  | Loc.waste =>
    -- `from_pile` is a copy: the pop is lost (the card is duplicated); only the
    -- aliased face-up flip reaches the real waste
    { g with waste := flipAliasAfterPop g.waste n,
             foundations := updF g.foundations s (g.foundations s ++ [card]) }
  | Loc.stock =>
    { g with stock := flipAliasAfterPop g.stock n,
             foundations := updF g.foundations s (g.foundations s ++ [card]) }

/-- New state after the non-foundation-destination success path
(game_manager.py lines 197-204): the suffix from `card_index` moves.  When the
destination is `waste`/`stock` the appends land in a copy and the cards are
lost from play; when the source is `waste`/`stock` the deletion is lost and the
cards are duplicated. -/
def tableauMoveState (g : GameState) (floc tloc : Loc) (n : Nat) : GameState :=
  -- `cards_to_move = from_pile[card_index:]` is the suffix of the source pile
  -- from `n`, written out per source below
  match floc, tloc with
  | Loc.tableau i, Loc.tableau k =>
    if i = k then
      -- same list object: `del` then re-append restores the pile, then reveal
      { g with tableau := updT g.tableau i (flipLastIfDown ((g.tableau i).take n ++ (g.tableau i).drop n)) }
    else
      { g with tableau := fun j =>
          if j = k then g.tableau k ++ (g.tableau i).drop n
          else if j = i then flipLastIfDown ((g.tableau i).take n)
          else g.tableau j }
  | Loc.foundation s, Loc.tableau k =>
    { g with foundations := updF g.foundations s (flipLastIfDown ((g.foundations s).take n)),
             tableau := updT g.tableau k (g.tableau k ++ (g.foundations s).drop n) }
  | Loc.waste, Loc.tableau k =>
    { g with waste := flipAliasAfterDel g.waste n,
             tableau := updT g.tableau k (g.tableau k ++ g.waste.drop n) }
  | Loc.stock, Loc.tableau k =>
    { g with stock := flipAliasAfterDel g.stock n,
             tableau := updT g.tableau k (g.tableau k ++ g.stock.drop n) }
  | Loc.tableau i, _ =>
    -- destination waste/stock: appended to a copy, cards lost
    { g with tableau := updT g.tableau i (flipLastIfDown ((g.tableau i).take n)) }
  | Loc.foundation s, _ =>
    { g with foundations := updF g.foundations s (flipLastIfDown ((g.foundations s).take n)) }
  | Loc.waste, _ => { g with waste := flipAliasAfterDel g.waste n }
  | Loc.stock, _ => { g with stock := flipAliasAfterDel g.stock n }

/-- `GameManager.move_card` (game_manager.py lines 122-214).  The destination
branch `if 'foundation' in to_location` is modelled by matching the resolved
location: among strings that pass the regex *and* resolve to a pile, exactly
the `foundation_<suit>` ones contain the substring `'foundation'`. -/
def move_card (g : GameState) (from_location to_location : String)
    (card_index : Int) : MoveResult :=
  -- `if not re.match(pattern, from_location) or not re.match(pattern, to_location)`
  if patMatch from_location = false ∨ patMatch to_location = false then
    ⟨false, "Formato de ubicación inválido", g⟩
  else
    match getPileLoc from_location, getPileLoc to_location with
    | none, _ => ⟨false, "Ubicación no encontrada", g⟩
    | some _, none => ⟨false, "Ubicación no encontrada", g⟩
    | some floc, some tloc =>
      -- `from_pile` below is `pileOf g floc`, `card` is `(pileOf g floc).getD n dummyCard`
      if (pileOf g floc).length = 0 then
        ⟨false, "No hay cartas en la ubicación origen", g⟩
      else
        match resolvedIndex card_index (pileOf g floc).length with
        | none => ⟨false, "Índice de carta inválido", g⟩
        | some n =>
          -- `if not card.face_up and card_index != len(from_pile) - 1`
          if ((pileOf g floc).getD n dummyCard).face_up = false ∧ n ≠ (pileOf g floc).length - 1 then
            ⟨false, "No puedes mover cartas boca abajo", g⟩
          else
            match tloc with
            | Loc.foundation s =>
              if can_move_to_foundation g ((pileOf g floc).getD n dummyCard) s = false then
                ⟨false, "Movimiento no válido a la fundación", g⟩
              else
                finishMove (foundationMoveState g floc s n ((pileOf g floc).getD n dummyCard))
            | _ =>
              if can_move_to_tableau (pileOf g floc) n (pileOf g tloc) = false then
                ⟨false, "Movimiento no válido al tableau", g⟩
              else
                finishMove (tableauMoveState g floc tloc n)

/-- `GameManager.draw_from_stock` (game_manager.py lines 93-120): non-empty
stock pops the front card, flips it face-up, appends to waste and counts a
move; empty stock recycles the waste back into the stock in reverse order,
face-down, without counting a move.  Both report success. -/
def draw_from_stock (g : GameState) : MoveResult :=
  match g.stock with
  | c :: rest =>
    ⟨true, "Carta extraída del mazo",
      { g with stock := rest,
               waste := g.waste ++ [{ c with face_up := true }],
               moves_count := g.moves_count + 1 }⟩
  | [] =>
    -- `while len(self.waste) > 0: card = self.waste.pop(); card.face_up = False;
    --  self.stock.append(card)` with an empty stock
    ⟨true, "Mazo reiniciado",
      { g with stock := g.waste.reverse.map (fun c => { c with face_up := false }),
               waste := [] }⟩

/-! ### Dealing (`new_game`, game_manager.py lines 55-91) -/

/-- The inner dealing loop `for row in range(col + 1)` of `new_game`, given the
list of remaining row numbers: draw the front card (skipping silently if the
deck is exhausted, `if card:`), flip it face-up when `row == col`, and append
it to the column. -/
def dealRows : List Card → List Nat → Nat → List Card × List Card
  | deck, [], _ => ([], deck)
  | [], _ :: _, _ => ([], [])
  | c :: deckRest, row :: rowsRest, col =>
    ((if row = col then { c with face_up := true } else c)
        :: (dealRows deckRest rowsRest col).1,
      (dealRows deckRest rowsRest col).2)

/-- The outer dealing loop `for col in range(7)` of `new_game`, over the list
of remaining column numbers; returns the dealt columns and the leftover deck
(which `new_game` drains into the stock). -/
def dealCols : List Card → List Nat → List (List Card) × List Card
  | deck, [] => ([], deck)
  | deck, col :: colsRest =>
    ((dealRows deck (List.range (col + 1)) col).1
        :: (dealCols (dealRows deck (List.range (col + 1)) col).2 colsRest).1,
      (dealCols (dealRows deck (List.range (col + 1)) col).2 colsRest).2)

/-- `GameManager.new_game` (game_manager.py lines 55-91), parameterised by the
deck order `random.shuffle` produced: all piles and counters are reset, column
`col` receives `col + 1` cards with the last one flipped face-up, and the rest
of the deck becomes the stock in remaining deck order.  It always succeeds. -/
def new_game (order : List Card) : GameState :=
  { tableau := fun i => (dealCols order (List.range 7)).1.getD i.val [],
    foundations := fun _ => [],
    stock := (dealCols order (List.range 7)).2,
    waste := [],
    moves_count := 0,
    game_won := false }

/-! ### The standard deck and whole-state card accounting -/

/-- Dict-ordered suit list (`suits` in deck.py line 56). -/
def suitsList : List Suit := [Suit.hearts, Suit.diamonds, Suit.clubs, Suit.spades]

/-- `Deck.initialize_standard_deck` (deck.py lines 51-65): all 52 suit/value
combinations, suit-major, values 1..13, face-down. -/
def standardDeck : List Card :=
  suitsList.flatMap (fun s => (List.range 13).map (fun v => ⟨s, (v : Int) + 1, false⟩))

/-- Identity of a card for counting: its (suit, rank) pair; face state is
ignored (card.py `__eq__`, lines 201-214). -/
def cardKey (c : Card) : Suit × Int := (c.suit, c.value)

/-- Every card in the live game state: tableau piles, foundations, stock and
waste, concatenated. -/
def allCards (g : GameState) : List Card :=
  (g.tableau 0 ++ g.tableau 1 ++ g.tableau 2 ++ g.tableau 3
      ++ g.tableau 4 ++ g.tableau 5 ++ g.tableau 6)
    ++ (g.foundations Suit.hearts ++ g.foundations Suit.diamonds
      ++ g.foundations Suit.clubs ++ g.foundations Suit.spades)
    ++ g.stock ++ g.waste

/-! ### Concrete states used by the claim-level evaluations -/

/-- A legal shuffle outcome (a rotation of the standard order) that places the
Ace of hearts at position 28, i.e. at the front of the stock after dealing the
28 tableau cards. -/
def dupOrder : List Card := standardDeck.drop 24 ++ standardDeck.take 24

/-- The freshly dealt game for that shuffle. -/
def dupState0 : GameState := new_game dupOrder

/-- After one `draw_from_stock`: the Ace of hearts sits face-up on the waste. -/
def dupState1 : GameState := (draw_from_stock dupState0).state

/-- Moving the waste's top card (the Ace of hearts) onto its foundation. -/
def dupResult : MoveResult := move_card dupState1 "waste" "foundation_hearts" (-1)

/-- A black King alone on column 0, a red Queen on the waste (the spec's own
scenario for a legal tableau move). -/
def kingQueenState : GameState :=
  { tableau := fun i => if i = 0 then [⟨Suit.spades, 13, true⟩] else [],
    foundations := fun _ => [], stock := [], waste := [⟨Suit.hearts, 12, true⟩],
    moves_count := 0, game_won := false }

/-- An Ace of hearts on the waste, all foundations empty. -/
def aceWasteState : GameState :=
  { tableau := fun _ => [], foundations := fun _ => [], stock := [],
    waste := [⟨Suit.hearts, 1, true⟩], moves_count := 0, game_won := false }

/-- A single face-down card on the stock. -/
def drawState : GameState :=
  { tableau := fun _ => [], foundations := fun _ => [], stock := [⟨Suit.clubs, 5, false⟩],
    waste := [], moves_count := 3, game_won := false }

/-- A complete ascending run of one suit, face-up. -/
def fullSuitRun (s : Suit) : List Card :=
  (List.range 13).map (fun v => ⟨s, (v : Int) + 1, true⟩)

/-- The won end state: all 52 cards on the foundations. -/
def wonState : GameState :=
  { tableau := fun _ => [], foundations := fullSuitRun, stock := [], waste := [],
    moves_count := 100, game_won := true }

/-- Pulling the King of spades off its completed foundation onto an empty
column — legal for the tableau rules, and it leaves only 51 foundation cards. -/
def wonResult : MoveResult := move_card wonState "foundation_spades" "tableau_0" (-1)

/-- A lone face-down Ace of hearts at the back of the stock. -/
def faceDownStockState : GameState :=
  { tableau := fun _ => [], foundations := fun _ => [], stock := [⟨Suit.hearts, 1, false⟩],
    waste := [], moves_count := 0, game_won := false }

/-- Moving the stock's last (face-down) card onto its foundation. -/
def faceDownResult : MoveResult := move_card faceDownStockState "stock" "foundation_hearts" (-1)

/-- `initState` with the win flag forced on, to exercise the latch. -/
def monoState : GameState := { initState with game_won := true }

/-- 51 foundation cards (spades stops at the Queen) and the King of spades on
the waste: one legal move away from the win condition. -/
def almostWonState : GameState :=
  { tableau := fun _ => [],
    foundations := fun s =>
      if s = Suit.spades then (fullSuitRun Suit.spades).take 12 else fullSuitRun s,
    stock := [], waste := [⟨Suit.spades, 13, true⟩],
    moves_count := 50, game_won := false }

/-! ### Spec-side predicates (stated from spec.md, for comparison with the
code's legality checks) -/

/-- The spec's tableau-placement rule (spec.md §4.3 / §4.1 `canStackOn`):
an empty destination accepts exactly rank 13; a non-empty destination accepts
exactly rank = top's rank − 1 with opposite colors. -/
def specTableauLegal (movingCard : Card) (dest : List Card) : Prop :=
  (dest = [] ∧ movingCard.value = 13)
  ∨ (∃ top, dest.getLast? = some top
      ∧ movingCard.value = top.value - 1 ∧ movingCard.is_red ≠ top.is_red)

/-- The spec's foundation rule (spec.md §4.3): matching suit, and an Ace on an
empty foundation or rank = top's rank + 1. -/
def specFoundationLegal (card : Card) (s : Suit) (foundation : List Card) : Prop :=
  card.suit = s
  ∧ ((foundation = [] ∧ card.value = 1)
    ∨ (∃ top, foundation.getLast? = some top ∧ card.value = top.value + 1))

/-! ### Helper lemmas -/

theorem finishMove_success (g : GameState) : (finishMove g).success = true := rfl

theorem finishMove_message (g : GameState) :
    (finishMove g).message = "Movimiento exitoso" := rfl

theorem finishMove_state_foundations (g : GameState) :
    (finishMove g).state.foundations = g.foundations := rfl

theorem finishMove_state_game_won (g : GameState) :
    (finishMove g).state.game_won
      = if foundationTotal g = 52 then true else g.game_won := rfl

theorem foundationMoveState_game_won (g : GameState) (floc : Loc) (s : Suit)
    (n : Nat) (card : Card) :
    (foundationMoveState g floc s n card).game_won = g.game_won := by
  cases floc
  all_goals unfold foundationMoveState
  all_goals repeat' split
  all_goals rfl

theorem tableauMoveState_game_won (g : GameState) (floc tloc : Loc) (n : Nat) :
    (tableauMoveState g floc tloc n).game_won = g.game_won := by
  cases floc <;> cases tloc
  all_goals unfold tableauMoveState
  all_goals repeat' split
  all_goals rfl

/-- Every `move_card` call either fails leaving the state untouched, or ends in
`finishMove` applied to a state whose `game_won` flag is still the caller's. -/
theorem move_card_split (g : GameState) (fl tl : String) (ci : Int) :
    ((move_card g fl tl ci).success = false ∧ (move_card g fl tl ci).state = g)
    ∨ (∃ g', move_card g fl tl ci = finishMove g' ∧ g'.game_won = g.game_won) := by
  unfold move_card
  repeat' split
  all_goals
    first
      | exact Or.inl ⟨rfl, rfl⟩
      | exact Or.inr ⟨_, rfl, foundationMoveState_game_won ..⟩
      | exact Or.inr ⟨_, rfl, tableauMoveState_game_won ..⟩

/-! ### Claim C1 / C2: the `_get_pile` copy bug -/

/-- Claim C1 (code bug): card conservation fails on a state reachable from
`deal()` by one `drawFromStock()` and one successful `moveCards`.  With the
shuffle `dupOrder`, the Ace of hearts is the stock's front card; drawing it and
moving it from the waste to its foundation *succeeds* yet leaves the Ace both
on the waste and on the foundation (`_get_pile` hands `move_card` a copy of the
waste, so the pop is lost): the union of all piles then holds 53 cards with the
Ace of hearts twice, not 52 distinct cards. -/
theorem c1_card_conservation_violated :
    dupResult.success = true
    ∧ (allCards dupState1).countP
        (fun c => decide (c.suit = Suit.hearts ∧ c.value = 1)) = 1
    ∧ (allCards dupResult.state).countP
        (fun c => decide (c.suit = Suit.hearts ∧ c.value = 1)) = 2
    ∧ (allCards dupState1).length = 52
    ∧ (allCards dupResult.state).length = 53 := by decide

/-- Claim C2 (code bug): a successful `moveCards` whose source is `waste` does
*not* remove the moved card from the waste.  In the same scenario as C1, the
move reports success, increments `movesCount`, appends the card to the
foundation — but the waste still holds the very card that was "moved". -/
theorem c2_waste_source_card_not_removed :
    dupResult.success = true
    ∧ dupState1.waste = [⟨Suit.hearts, 1, true⟩]
    ∧ dupResult.state.waste = dupState1.waste
    ∧ dupResult.state.foundations Suit.hearts = [⟨Suit.hearts, 1, true⟩]
    ∧ dupResult.state.moves_count = dupState1.moves_count + 1 := by decide

/-! ### Claim C3: failures leave the state unchanged -/

/-- Claim C3: every `moveCards` call that reports failure returns the game
state exactly as it was before the call (all failure paths return before any
mutation), so the reported snapshot and `movesCount` are unchanged. -/
theorem c3_failure_leaves_state_unchanged (g : GameState) (fl tl : String)
    (ci : Int) (h : (move_card g fl tl ci).success = false) :
    (move_card g fl tl ci).state = g := by
  rcases move_card_split g fl tl ci with ⟨_, hst⟩ | ⟨g', he, _⟩
  · exact hst
  · rw [he, finishMove_success] at h
    cases h

theorem c3_failure_leaves_state_unchanged_witness :
    (move_card initState "waste" "waste" (-1)).success = false
    ∧ (move_card initState "waste" "waste" (-1)).state = initState :=
  ⟨by decide,
    c3_failure_leaves_state_unchanged initState "waste" "waste" (-1) (by decide)⟩

/-! ### Claim C8: the win flag is a latch, not an iff -/

/-- Claim C8 counterexample: starting from the fully-won state (all 52 cards on
the foundations, `game_won = true` — a state where the claimed biconditional
holds), moving the King of spades from its foundation onto an empty tableau
column succeeds and leaves only 51 foundation cards, yet `game_won` stays
`true`: `_check_win_condition` only ever sets the flag, never clears it. -/
theorem c8_game_won_latch_counterexample :
    foundationTotal wonState = 52
    ∧ wonState.game_won = true
    ∧ wonResult.success = true
    ∧ foundationTotal wonResult.state = 51
    ∧ wonResult.state.game_won = true := by decide

/-- Claim C8 amended: after every successful move `game_won` equals
`if` the foundations now hold 52 cards `then true else` its previous value —
so `_check_win_condition` sets the flag exactly at 52 and otherwise leaves it
alone (a `false` flag stays `false` below 52, a `true` flag is never cleared);
failing moves and `drawFromStock` leave it untouched; only `deal()` resets it
to `false`. -/
theorem c8_game_won_set_only (g : GameState) (fl tl : String) (ci : Int)
    (order : List Card) :
    ((move_card g fl tl ci).success = true →
      (move_card g fl tl ci).state.game_won
        = if foundationTotal (move_card g fl tl ci).state = 52 then true
          else g.game_won)
    ∧ ((move_card g fl tl ci).success = false →
        (move_card g fl tl ci).state.game_won = g.game_won)
    ∧ (draw_from_stock g).state.game_won = g.game_won
    ∧ (new_game order).game_won = false := by
  refine ⟨?_, ?_, ?_, rfl⟩
  · intro hs
    rcases move_card_split g fl tl ci with ⟨hf, _⟩ | ⟨g', he, hwon⟩
    · rw [hf] at hs; cases hs
    · rw [he, finishMove_state_game_won, hwon]
      have hft : foundationTotal (finishMove g').state = foundationTotal g' := rfl
      rw [hft]
  · intro hf
    rcases move_card_split g fl tl ci with ⟨_, hst⟩ | ⟨g', he, _⟩
    · rw [hst]
    · rw [he, finishMove_success] at hf
      cases hf
  · unfold draw_from_stock
    split <;> rfl

theorem c8_game_won_set_only_witness :
    (move_card kingQueenState "waste" "tableau_0" (-1)).success = true
    ∧ (move_card kingQueenState "waste" "tableau_0" (-1)).state.game_won = false
    ∧ (move_card almostWonState "waste" "foundation_spades" (-1)).success = true
    ∧ foundationTotal (move_card almostWonState "waste" "foundation_spades" (-1)).state = 52
    ∧ (move_card almostWonState "waste" "foundation_spades" (-1)).state.game_won = true := by
  have h1 := (c8_game_won_set_only kingQueenState "waste" "tableau_0" (-1) []).1
    (by decide)
  have h2 := (c8_game_won_set_only almostWonState "waste" "foundation_spades" (-1) []).1
    (by decide)
  exact ⟨by decide, h1.trans (by decide), by decide, by decide, h2.trans (by decide)⟩

/-! ### Claim C9: which strings fail with which error -/

/-- Claim C9 counterexample: `'tableau_7'` matches the code's regex
`^(tableau_\d|foundation_\w+|waste|stock)$` (the pattern is `\d`, not `[0-6]`),
so it does **not** fail with the format error; it falls through to `_get_pile`,
which returns `None`, and the call fails with the *location-not-found* error
instead. -/
theorem c9_tableau7_wrong_error_kind :
    patMatch "tableau_7" = true
    ∧ (move_card initState "tableau_7" "waste" (-1)).message = "Ubicación no encontrada"
    ∧ (move_card initState "tableau_7" "waste" (-1)).message ≠ "Formato de ubicación inválido"
    := by decide

/-- Claim C9 amended: a `moveCards` call fails with the format error
(`InvalidLocation`) exactly when one of the two location strings fails the
code's actual pattern `^(tableau_\d|foundation_\w+|waste|stock)$`, and that
failure happens before any mutation.  Strings matching this pattern but
denoting no pile (such as `tableau_7` or `foundation_xyz`) instead fail later
with the location-not-found error. -/
theorem c9_invalid_location_iff_pattern (g : GameState) (fl tl : String) (ci : Int) :
    ((move_card g fl tl ci).message = "Formato de ubicación inválido"
      ↔ (patMatch fl = false ∨ patMatch tl = false))
    ∧ ((move_card g fl tl ci).message = "Formato de ubicación inválido"
        → (move_card g fl tl ci).state = g) := by
  unfold move_card
  split
  · rename_i h
    exact ⟨⟨fun _ => h, fun _ => rfl⟩, fun _ => rfl⟩
  · rename_i h
    repeat' split
    all_goals refine ⟨⟨fun hm => ?_, fun hc => absurd hc h⟩, fun hm => ?_⟩
    all_goals simp [finishMove] at hm

theorem c9_invalid_location_iff_pattern_witness :
    (move_card initState "bogus" "waste" (-1)).message = "Formato de ubicación inválido"
    ∧ (move_card initState "bogus" "waste" (-1)).state = initState := by
  have h1 := (c9_invalid_location_iff_pattern initState "bogus" "waste" (-1)).1.mpr
    (Or.inl (by decide))
  exact ⟨h1, (c9_invalid_location_iff_pattern initState "bogus" "waste" (-1)).2 h1⟩

/-! ### Claim C10: face-down cards and the legality rules -/

/-- Claim C10 counterexample: the legality rules never look at `face_up`.  A
face-down Ace of hearts sitting at the back of the stock is the selected card
of `moveCards('stock', 'foundation_hearts')` (it is the pile's last element, so
the face-down guard does not reject it), the foundation rule accepts it, the
move succeeds, and the game state visibly changes — the foundation gains the
(still face-down) Ace. -/
theorem c10_face_down_move_succeeds :
    (faceDownStockState.stock.getD 0 dummyCard).face_up = false
    ∧ faceDownResult.success = true
    ∧ faceDownResult.state.foundations Suit.hearts = [⟨Suit.hearts, 1, false⟩]
    ∧ faceDownResult.state.foundations Suit.hearts ≠ faceDownStockState.foundations Suit.hearts
    := by decide

/-- Claim C10 amended: the foundation and tableau legality rules are blind to
face state — they read only suit, rank and the destination pile — so a
face-down selected card is treated exactly like the same card face-up, and such
a move *can* succeed and mutate the game state (it is not harmless). -/
theorem c10_legality_ignores_face_state (c top : Card) (g : GameState) (s : Suit)
    (b b' : Bool) :
    can_move_to_foundation g { c with face_up := b } s = can_move_to_foundation g c s
    ∧ Card.can_place_on { c with face_up := b } (some { top with face_up := b' })
        = Card.can_place_on c (some top)
    ∧ Card.is_red { c with face_up := b } = Card.is_red c :=
  ⟨rfl, rfl, rfl⟩

/-! ### Claim C4 / C5: the legality checks match the spec's rules -/

/-- The code's `_can_move_to_tableau` decides exactly the spec's tableau rule
for the card at `card_index` of the source pile. -/
theorem can_move_to_tableau_iff_spec (fp : List Card) (n : Nat) (tp : List Card) :
    can_move_to_tableau fp n tp = true
      ↔ specTableauLegal (fp.getD n dummyCard) tp := by
  rcases tp.eq_nil_or_concat with rfl | ⟨ys, y, rfl⟩
  · simp [can_move_to_tableau, specTableauLegal]
  · simp [can_move_to_tableau, specTableauLegal, Card.can_place_on,
      List.getLast?_concat]

/-- The code's `_can_move_to_foundation` decides exactly the spec's foundation
rule. -/
theorem can_move_to_foundation_iff_spec (g : GameState) (card : Card) (s : Suit) :
    can_move_to_foundation g card s = true
      ↔ specFoundationLegal card s (g.foundations s) := by
  unfold can_move_to_foundation specFoundationLegal
  by_cases hs : card.suit = s
  · rcases (g.foundations s).eq_nil_or_concat with hnil | ⟨ys, y, hcat⟩
    · rw [hnil]
      simp [hs]
    · rw [hcat]
      simp [hs, List.getLast?_concat]
  · simp [hs]

/-- When the source is not the destination foundation itself, the success path
appends exactly the selected card to that foundation. -/
theorem foundationMoveState_foundations_dest (g : GameState) (floc : Loc)
    (s : Suit) (n : Nat) (card : Card) (hne : floc ≠ Loc.foundation s) :
    (foundationMoveState g floc s n card).foundations s
      = g.foundations s ++ [card] := by
  cases floc
  case tableau i => simp [foundationMoveState, updF]
  case foundation s' =>
    have hss : s' ≠ s := fun h => hne (by rw [h])
    simp [foundationMoveState, hss, updF]
  case waste => simp [foundationMoveState, updF]
  case stock => simp [foundationMoveState, updF]

/-- Claim C4: once a `moveCards` call has passed location validation, the
non-empty-source check, index resolution and the face-down guard, and its
destination is tableau column `k`, it succeeds exactly when the spec's tableau
rule holds for the selected card (empty column ↔ King; otherwise descending
rank and alternating color against the current top card); otherwise it fails
with the tableau-move error and the state is returned unchanged. -/
theorem c4_tableau_destination_legality (g : GameState) (fl tl : String)
    (floc : Loc) (k : Fin 7) (ci : Int) (n : Nat)
    (hfl : patMatch fl = true) (htl : patMatch tl = true)
    (hfloc : getPileLoc fl = some floc) (htloc : getPileLoc tl = some (Loc.tableau k))
    (hne : (pileOf g floc).length ≠ 0)
    (hidx : resolvedIndex ci (pileOf g floc).length = some n)
    (hface : ¬(((pileOf g floc).getD n dummyCard).face_up = false
        ∧ n ≠ (pileOf g floc).length - 1)) :
    ((move_card g fl tl ci).success = true
      ↔ specTableauLegal ((pileOf g floc).getD n dummyCard) (g.tableau k))
    ∧ (¬ specTableauLegal ((pileOf g floc).getD n dummyCard) (g.tableau k)
        → move_card g fl tl ci = ⟨false, "Movimiento no válido al tableau", g⟩) := by
  have hcond : ¬(patMatch fl = false ∨ patMatch tl = false) := by simp [hfl, htl]
  unfold move_card
  rw [if_neg hcond, hfloc, htloc]
  dsimp only
  rw [if_neg hne, hidx]
  dsimp only
  rw [if_neg hface]
  rw [show pileOf g (Loc.tableau k) = g.tableau k from rfl]
  by_cases hcan : can_move_to_tableau (pileOf g floc) n (g.tableau k) = true
  · rw [if_neg (by rw [hcan]; decide)]
    exact ⟨⟨fun _ => (can_move_to_tableau_iff_spec _ _ _).mp hcan,
        fun _ => finishMove_success _⟩,
      fun hns => absurd ((can_move_to_tableau_iff_spec _ _ _).mp hcan) hns⟩
  · have hcf : can_move_to_tableau (pileOf g floc) n (g.tableau k) = false := by
      revert hcan; cases can_move_to_tableau (pileOf g floc) n (g.tableau k) <;> simp
    rw [if_pos hcf]
    exact ⟨⟨fun hft => Bool.noConfusion hft,
        fun hspec => absurd ((can_move_to_tableau_iff_spec _ _ _).mpr hspec) (by rw [hcf]; decide)⟩,
      fun _ => rfl⟩

theorem c4_tableau_destination_legality_witness :
    (move_card kingQueenState "waste" "tableau_0" (-1)).success = true :=
  (c4_tableau_destination_legality kingQueenState "waste" "tableau_0" Loc.waste 0
      (-1) 0 (by decide) (by decide) (by decide) (by decide) (by decide) (by decide)
      (by decide)).1.mpr
    (Or.inr ⟨⟨Suit.spades, 13, true⟩, by decide, by decide, by decide⟩)

/-- Claim C5: once a `moveCards` call has passed the same preliminary stages
and its destination is the foundation for suit `s`, it succeeds exactly when
the spec's foundation rule holds for the selected card (matching suit, and Ace
on empty or top rank + 1); otherwise it fails with the foundation-move error
and the state is returned unchanged; and on success exactly the one selected
card is appended to that foundation. -/
theorem c5_foundation_destination_legality (g : GameState) (fl tl : String)
    (floc : Loc) (s : Suit) (ci : Int) (n : Nat)
    (hfl : patMatch fl = true) (htl : patMatch tl = true)
    (hfloc : getPileLoc fl = some floc) (htloc : getPileLoc tl = some (Loc.foundation s))
    (hne : (pileOf g floc).length ≠ 0)
    (hidx : resolvedIndex ci (pileOf g floc).length = some n)
    (hface : ¬(((pileOf g floc).getD n dummyCard).face_up = false
        ∧ n ≠ (pileOf g floc).length - 1)) :
    ((move_card g fl tl ci).success = true
      ↔ specFoundationLegal ((pileOf g floc).getD n dummyCard) s (g.foundations s))
    ∧ (¬ specFoundationLegal ((pileOf g floc).getD n dummyCard) s (g.foundations s)
        → move_card g fl tl ci = ⟨false, "Movimiento no válido a la fundación", g⟩)
    ∧ (specFoundationLegal ((pileOf g floc).getD n dummyCard) s (g.foundations s)
        → floc ≠ Loc.foundation s
        → (move_card g fl tl ci).state.foundations s
            = g.foundations s ++ [(pileOf g floc).getD n dummyCard]) := by
  have hcond : ¬(patMatch fl = false ∨ patMatch tl = false) := by simp [hfl, htl]
  unfold move_card
  rw [if_neg hcond, hfloc, htloc]
  dsimp only
  rw [if_neg hne, hidx]
  dsimp only
  rw [if_neg hface]
  by_cases hcan : can_move_to_foundation g ((pileOf g floc).getD n dummyCard) s = true
  · rw [if_neg (by rw [hcan]; decide)]
    refine ⟨⟨fun _ => (can_move_to_foundation_iff_spec g _ s).mp hcan,
        fun _ => finishMove_success _⟩,
      fun hns => absurd ((can_move_to_foundation_iff_spec g _ s).mp hcan) hns,
      fun _ hfne => ?_⟩
    rw [show (finishMove (foundationMoveState g floc s n ((pileOf g floc).getD n dummyCard))).state.foundations = (foundationMoveState g floc s n ((pileOf g floc).getD n dummyCard)).foundations from rfl]
    exact foundationMoveState_foundations_dest g floc s n _ hfne
  · have hcf : can_move_to_foundation g ((pileOf g floc).getD n dummyCard) s = false := by
      revert hcan
      cases can_move_to_foundation g ((pileOf g floc).getD n dummyCard) s <;> simp
    rw [if_pos hcf]
    exact ⟨⟨fun hft => Bool.noConfusion hft,
        fun hspec => absurd ((can_move_to_foundation_iff_spec g _ s).mpr hspec) (by rw [hcf]; decide)⟩,
      fun _ => rfl,
      fun hspec _ => absurd ((can_move_to_foundation_iff_spec g _ s).mpr hspec) (by rw [hcf]; decide)⟩

theorem c5_foundation_destination_legality_witness :
    (move_card aceWasteState "waste" "foundation_hearts" (-1)).success = true
    ∧ (move_card aceWasteState "waste" "foundation_hearts" (-1)).state.foundations Suit.hearts
        = aceWasteState.foundations Suit.hearts ++ [⟨Suit.hearts, 1, true⟩] := by
  have h := c5_foundation_destination_legality aceWasteState "waste" "foundation_hearts"
    Loc.waste Suit.hearts (-1) 0 (by decide) (by decide) (by decide) (by decide)
    (by decide) (by decide) (by decide)
  have hspec : specFoundationLegal ((pileOf aceWasteState Loc.waste).getD 0 dummyCard)
      Suit.hearts (aceWasteState.foundations Suit.hearts) :=
    ⟨by decide, Or.inl ⟨by decide, by decide⟩⟩
  exact ⟨h.1.mpr hspec, h.2.2 hspec (by decide)⟩

/-! ### Claim C6: drawing from the stock -/

/-- Claim C6: with a non-empty stock, `drawFromStock` removes the stock's front
card, flips it face-up, appends it to the waste and counts one move; with an
empty stock it moves the whole waste back into the stock in reverse order
(waste's top first), face-down, empties the waste and does not count a move.
Both branches report success and touch neither tableau nor foundations. -/
theorem c6_draw_from_stock_spec (g : GameState) :
    (∀ c rest, g.stock = c :: rest →
      (draw_from_stock g).success = true
      ∧ (draw_from_stock g).state.stock = rest
      ∧ (draw_from_stock g).state.waste = g.waste ++ [{ c with face_up := true }]
      ∧ (draw_from_stock g).state.moves_count = g.moves_count + 1
      ∧ (draw_from_stock g).state.tableau = g.tableau
      ∧ (draw_from_stock g).state.foundations = g.foundations)
    ∧ (g.stock = [] →
      (draw_from_stock g).success = true
      ∧ (draw_from_stock g).state.stock
          = g.waste.reverse.map (fun c => { c with face_up := false })
      ∧ (draw_from_stock g).state.waste = []
      ∧ (draw_from_stock g).state.moves_count = g.moves_count
      ∧ (draw_from_stock g).state.tableau = g.tableau
      ∧ (draw_from_stock g).state.foundations = g.foundations) := by
  constructor
  · intro c rest hst
    unfold draw_from_stock
    rw [hst]
    exact ⟨rfl, rfl, rfl, rfl, rfl, rfl⟩
  · intro hst
    unfold draw_from_stock
    rw [hst]
    exact ⟨rfl, rfl, rfl, rfl, rfl, rfl⟩

theorem c6_draw_from_stock_spec_witness :
    (draw_from_stock drawState).success = true
    ∧ (draw_from_stock drawState).state.waste = [⟨Suit.clubs, 5, true⟩]
    ∧ (draw_from_stock drawState).state.moves_count = 4 := by
  have h := (c6_draw_from_stock_spec drawState).1 ⟨Suit.clubs, 5, false⟩ [] rfl
  exact ⟨h.1, h.2.2.1, h.2.2.2.1⟩

/-! ### Claim C7: the deal -/

theorem dealRows_nil (deck : List Card) (col : Nat) :
    dealRows deck [] col = ([], deck) := by
  cases deck <;> rfl

/-- Dealing rows none of which equals `col` takes a prefix of the deck
unchanged. -/
theorem dealRows_no_col (rows : List Nat) : ∀ (deck : List Card) (col : Nat),
    (∀ r ∈ rows, r ≠ col) → rows.length ≤ deck.length →
    dealRows deck rows col = (deck.take rows.length, deck.drop rows.length) := by
  induction rows with
  | nil => intro deck col _ _; simp [dealRows_nil]
  | cons r rs ih =>
    intro deck col hne hlen
    cases deck with
    | nil => simp at hlen
    | cons c cs =>
      have h1 : r ≠ col := hne r (List.mem_cons_self r rs)
      simp only [dealRows, if_neg h1]
      rw [ih cs col (fun x hx => hne x (List.mem_cons_of_mem r hx)) (by simpa using hlen)]
      simp

/-- The dealing loop splits over an append of row lists. -/
theorem dealRows_append (r1 r2 : List Nat) : ∀ (deck : List Card) (col : Nat),
    dealRows deck (r1 ++ r2) col
      = ((dealRows deck r1 col).1 ++ (dealRows (dealRows deck r1 col).2 r2 col).1,
         (dealRows (dealRows deck r1 col).2 r2 col).2) := by
  induction r1 with
  | nil => intro deck col; simp [dealRows_nil]
  | cons r rs ih =>
    intro deck col
    cases deck with
    | nil => cases r2 <;> simp [dealRows, dealRows_nil]
    | cons c cs =>
      simp only [List.cons_append, dealRows, List.append_eq]
      rw [ih cs col]

/-- One full column: the first `col` cards go in unchanged, the `col+1`-st is
flipped face-up, and the rest of the deck is returned. -/
theorem dealRows_range_succ (col : Nat) (deck : List Card) (c : Card)
    (rest : List Card) (hdrop : deck.drop col = c :: rest)
    (hlen : col ≤ deck.length) :
    dealRows deck (List.range (col + 1)) col
      = (deck.take col ++ [{ c with face_up := true }], rest) := by
  rw [show List.range (col + 1) = List.range col ++ [col] from List.range_succ col]
  rw [dealRows_append]
  rw [dealRows_no_col (List.range col) deck col
      (fun r hr => Nat.ne_of_lt (List.mem_range.mp hr))
      (by simpa [List.length_range] using hlen)]
  simp only [List.length_range]
  rw [hdrop]
  simp [dealRows, dealRows_nil]

/-- Master property of the column-dealing loop on a sufficiently long deck:
the leftover deck is the corresponding drop of the input, each column holds
`col + 1` cards, the dealt cards are (up to face flips) exactly the consumed
prefix of the deck, and — when the deck is all face-down — every column is
face-down except its last card, which is face-up. -/
theorem dealCols_spec (cols : List Nat) : ∀ (deck : List Card),
    (cols.map (· + 1)).sum ≤ deck.length →
    (dealCols deck cols).2 = deck.drop ((cols.map (· + 1)).sum)
    ∧ ((dealCols deck cols).1).map List.length = cols.map (· + 1)
    ∧ ((dealCols deck cols).1.flatMap id).map cardKey
        = (deck.take ((cols.map (· + 1)).sum)).map cardKey
    ∧ ((∀ c ∈ deck, c.face_up = false) →
        ∀ p ∈ (dealCols deck cols).1,
          (∀ c ∈ p.dropLast, c.face_up = false)
          ∧ ∃ t, p.getLast? = some t ∧ t.face_up = true) := by
  induction cols with
  | nil =>
    intro deck _
    exact ⟨by simp [dealCols], by simp [dealCols], by simp [dealCols],
      by simp [dealCols]⟩
  | cons col cs ih =>
    intro deck hlen
    have hS : (List.map (· + 1) (col :: cs)).sum
        = (col + 1) + (List.map (· + 1) cs).sum := by simp
    rw [hS] at hlen
    have hcol1 : col + 1 ≤ deck.length := by omega
    obtain ⟨c, rest, hdrop⟩ : ∃ c rest, deck.drop col = c :: rest := by
      cases hd : deck.drop col with
      | nil =>
        exfalso
        have hl := congrArg List.length hd
        simp [List.length_drop] at hl
        omega
      | cons c rest => exact ⟨c, rest, rfl⟩
    have hrows := dealRows_range_succ col deck c rest hdrop (by omega)
    have hrest : deck.drop (col + 1) = rest := by
      rw [← List.tail_drop, hdrop]
      rfl
    have hrlen : rest.length = deck.length - (col + 1) := by
      rw [← hrest, List.length_drop]
    have hcs : (List.map (· + 1) cs).sum ≤ rest.length := by omega
    obtain ⟨ih2, ihlen, ihkeys, ihface⟩ := ih rest hcs
    have htake : deck.take (col + 1) = deck.take col ++ [c] := by
      rw [List.take_add, hdrop]
      rfl
    refine ⟨?_, ?_, ?_, ?_⟩
    · show (dealCols deck (col :: cs)).2 = _
      simp only [dealCols, hrows]
      rw [ih2, ← hrest, List.drop_drop]
      congr 1
    · simp only [dealCols, hrows, List.map_cons, ihlen]
      have hplen : (deck.take col ++ [{ c with face_up := true }]).length = col + 1 := by
        simp only [List.length_append, List.length_take, List.length_cons,
          List.length_nil]
        omega
      rw [hplen]
    · have hpk : (deck.take col ++ [{ c with face_up := true }]).map cardKey
          = (deck.take (col + 1)).map cardKey := by
        rw [htake]
        simp [cardKey]
      have hsplit : (deck.take (col + 1 + (List.map (· + 1) cs).sum)).map cardKey
          = (deck.take (col + 1)).map cardKey
            ++ (rest.take ((List.map (· + 1) cs).sum)).map cardKey := by
        rw [List.take_add, List.map_append, hrest]
      simp only [dealCols, hrows, List.flatMap_cons, id]
      rw [List.map_append, ihkeys, hpk, hS, hsplit]
    · intro hfdown p hp
      simp only [dealCols, hrows, List.mem_cons] at hp
      rcases hp with rfl | hp
      · constructor
        · intro c' hc'
          rw [List.dropLast_concat] at hc'
          exact hfdown c' (List.take_subset col deck hc')
        · exact ⟨{ c with face_up := true }, List.getLast?_concat _, rfl⟩
      · refine ihface (fun c' hc' => hfdown c' ?_) p hp
        rw [← hrest] at hc'
        exact List.drop_subset (col + 1) deck hc'

/-- Claim C7: for every deck order `random.shuffle` can produce (any
permutation of the standard 52-card deck), `new_game` succeeds and yields a
state in which the 52 (suit, rank) identities are exactly those of the
standard deck (no duplicates, no omissions), tableau column `i` holds `i + 1`
cards of which exactly the last is face-up, the remaining 24 cards sit
face-down in the stock in remaining deck order, and the counters are reset. -/
theorem c7_deal_properties (order : List Card) (h : order.Perm standardDeck) :
    ((allCards (new_game order)).map cardKey).Perm (standardDeck.map cardKey)
    ∧ (standardDeck.map cardKey).Nodup
    ∧ (∀ i : Fin 7, ((new_game order).tableau i).length = i.val + 1)
    ∧ (∀ i : Fin 7,
        (∀ c ∈ ((new_game order).tableau i).dropLast, c.face_up = false)
        ∧ ∃ t, ((new_game order).tableau i).getLast? = some t ∧ t.face_up = true)
    ∧ (new_game order).stock = order.drop 28
    ∧ ((new_game order).stock).length = 24
    ∧ (∀ c ∈ (new_game order).stock, c.face_up = false)
    ∧ (∀ s, (new_game order).foundations s = [])
    ∧ (new_game order).waste = []
    ∧ (new_game order).moves_count = 0
    ∧ (new_game order).game_won = false := by
  have hlen52 : order.length = 52 := by rw [h.length_eq]; decide
  have hfd : ∀ c ∈ order, c.face_up = false := by
    have hall : standardDeck.all (fun c => !c.face_up) = true := by decide
    intro c hc
    have hb := List.all_eq_true.mp hall c (h.mem_iff.mp hc)
    simpa using hb
  have hsum : ((List.range 7).map (· + 1)).sum = 28 := by decide
  have hle : ((List.range 7).map (· + 1)).sum ≤ order.length := by
    rw [hsum, hlen52]
    omega
  obtain ⟨hrest, hmap, hkeys, hface⟩ := dealCols_spec (List.range 7) order hle
  rw [hsum] at hrest hkeys
  have hpilen : (dealCols order (List.range 7)).1.length = 7 := by
    have hl := congrArg List.length hmap
    simpa using hl
  obtain ⟨piles, rest2, hD⟩ : ∃ a b, dealCols order (List.range 7) = (a, b) :=
    ⟨_, _, rfl⟩
  rw [hD] at hrest hmap hkeys hface hpilen
  dsimp only at hrest hmap hkeys hface hpilen
  have hr7 : (List.range 7).map (· + 1) = [1, 2, 3, 4, 5, 6, 7] := by decide
  rw [hr7] at hmap
  rcases piles with _ | ⟨p1, piles⟩; · simp at hpilen
  rcases piles with _ | ⟨p2, piles⟩; · simp at hpilen
  rcases piles with _ | ⟨p3, piles⟩; · simp at hpilen
  rcases piles with _ | ⟨p4, piles⟩; · simp at hpilen
  rcases piles with _ | ⟨p5, piles⟩; · simp at hpilen
  rcases piles with _ | ⟨p6, piles⟩; · simp at hpilen
  rcases piles with _ | ⟨p7, piles⟩; · simp at hpilen
  obtain rfl : piles = [] := by
    cases piles with
    | nil => rfl
    | cons a l => simp at hpilen
  simp only [List.map_cons, List.map_nil, List.cons.injEq, and_true] at hmap
  obtain ⟨h1, h2, h3, h4, h5, h6, h7⟩ := hmap
  have hfaceall := hface hfd
  have ht : ∀ i : Fin 7, (new_game order).tableau i
      = [p1, p2, p3, p4, p5, p6, p7].getD i.val [] := by
    intro i
    show (dealCols order (List.range 7)).1.getD i.val [] = _
    rw [hD]
  have hst : (new_game order).stock = rest2 := by
    show (dealCols order (List.range 7)).2 = rest2
    rw [hD]
  have hstock : (new_game order).stock = order.drop 28 := by rw [hst, hrest]
  have ht0 : (new_game order).tableau 0 = p1 := by
    show (dealCols order (List.range 7)).1.getD (0 : Fin 7).val [] = p1
    rw [hD]
    rfl
  have ht1 : (new_game order).tableau 1 = p2 := by
    show (dealCols order (List.range 7)).1.getD (1 : Fin 7).val [] = p2
    rw [hD]
    rfl
  have ht2 : (new_game order).tableau 2 = p3 := by
    show (dealCols order (List.range 7)).1.getD (2 : Fin 7).val [] = p3
    rw [hD]
    rfl
  have ht3 : (new_game order).tableau 3 = p4 := by
    show (dealCols order (List.range 7)).1.getD (3 : Fin 7).val [] = p4
    rw [hD]
    rfl
  have ht4 : (new_game order).tableau 4 = p5 := by
    show (dealCols order (List.range 7)).1.getD (4 : Fin 7).val [] = p5
    rw [hD]
    rfl
  have ht5 : (new_game order).tableau 5 = p6 := by
    show (dealCols order (List.range 7)).1.getD (5 : Fin 7).val [] = p6
    rw [hD]
    rfl
  have ht6 : (new_game order).tableau 6 = p7 := by
    show (dealCols order (List.range 7)).1.getD (6 : Fin 7).val [] = p7
    rw [hD]
    rfl
  refine ⟨?_, by decide, ?_, ?_, hstock, ?_, ?_, fun _ => rfl, rfl, rfl, rfl⟩
  · -- card conservation up to permutation
    have hAC : (allCards (new_game order)).map cardKey
        = ([p1, p2, p3, p4, p5, p6, p7].flatMap id).map cardKey
          ++ rest2.map cardKey := by
      unfold allCards
      rw [ht0, ht1, ht2, ht3, ht4, ht5, ht6, hst]
      have hfnd : ∀ s, (new_game order).foundations s = [] := fun _ => rfl
      have hwst : (new_game order).waste = [] := rfl
      rw [hwst]
      simp [hfnd, List.flatMap_cons]
    rw [hAC, hkeys, hrest, ← List.map_append, List.take_append_drop]
    exact h.map cardKey
  · intro i
    rw [ht i]
    fin_cases i
    · exact h1
    · exact h2
    · exact h3
    · exact h4
    · exact h5
    · exact h6
    · exact h7
  · intro i
    rw [ht i]
    fin_cases i
    · exact hfaceall p1 (by simp)
    · exact hfaceall p2 (by simp)
    · exact hfaceall p3 (by simp)
    · exact hfaceall p4 (by simp)
    · exact hfaceall p5 (by simp)
    · exact hfaceall p6 (by simp)
    · exact hfaceall p7 (by simp)
  · rw [hstock, List.length_drop, hlen52]
  · intro c hc
    rw [hstock] at hc
    exact hfd c (List.drop_subset 28 order hc)

theorem c7_deal_properties_witness :
    ((new_game standardDeck).tableau 3).length = 4
    ∧ (new_game standardDeck).stock.length = 24
    ∧ (new_game standardDeck).moves_count = 0 := by
  have h := c7_deal_properties standardDeck (List.Perm.refl standardDeck)
  exact ⟨h.2.2.1 3, h.2.2.2.2.2.1, h.2.2.2.2.2.2.2.2.2.1⟩
